import Mathlib

/-!
Verification of the tweet-watcher monitor (src/main.py) against its
specification.  The Python source is shallowly embedded: each function of
main.py becomes a Lean definition of the same name, external collaborators
(HTTP fetch, LLM call, notification transport, file system) are modelled as
explicit inputs or explicit state, and the body of the infinite `while True`
loop in `main` becomes the pure cycle function `runCycle`, iterated by
`runTrace`.
-/

namespace TweetWatcher

/-! ## Content extractor (main.py, extract_paragraph_text)

`extract_paragraph_text` parses its argument with BeautifulSoup, collects
the `p` elements, takes each paragraph's text, strips surrounding
whitespace, and drops paragraphs that are empty after stripping.  The
parser is modelled for plain markup (tags without attributes, no nesting
inside `p`), which covers the posts the spec talks about. -/

/-- A markup token: an opening tag, a closing tag, or a run of text. -/
inductive HtmlTok where
  | tagOpenTok (name : String)
  | tagCloseTok (name : String)
  | textTok (s : String)
deriving DecidableEq, Repr

/-- Tokenizer for markup: a `<...>` group becomes a tag token (leading `/`
marks a closing tag), anything else becomes a text token.  Fuel-indexed;
each step consumes at least one character, so fuel `= length + 1` is enough. -/
def tokenizeHtml : Nat → List Char → List HtmlTok
  | 0, _ => []
  | _, [] => []
  | fuel + 1, '<' :: cs =>
      let tag := cs.takeWhile (fun c => c ≠ '>')
      let rest := (cs.dropWhile (fun c => c ≠ '>')).drop 1
      (match tag with
       | '/' :: name => HtmlTok.tagCloseTok (String.mk name)
       | name => HtmlTok.tagOpenTok (String.mk name)) :: tokenizeHtml fuel rest
  | fuel + 1, c :: cs =>
      HtmlTok.textTok (String.mk (c :: cs.takeWhile (fun x => x ≠ '<'))) ::
        tokenizeHtml fuel (cs.dropWhile (fun x => x ≠ '<'))

/-- A node of the parsed document: a text run or an element with children. -/
inductive HtmlNode where
  | textNode (s : String)
  | elemNode (tag : String) (children : List HtmlNode)

/-- Parser for flat markup: an open tag starts an element whose text content
accumulates until the matching close tag.  The accumulator holds the open
element's tag and the text gathered so far. -/
def parseFlatAux : List HtmlTok → Option (String × String) → List HtmlNode
  | [], none => []
  | [], some (n, buf) => [HtmlNode.elemNode n [HtmlNode.textNode buf]]
  | HtmlTok.textTok s :: ts, none => HtmlNode.textNode s :: parseFlatAux ts none
  | HtmlTok.textTok s :: ts, some (n, buf) => parseFlatAux ts (some (n, buf ++ s))
  | HtmlTok.tagOpenTok m :: ts, none => parseFlatAux ts (some (m, ""))
  | HtmlTok.tagOpenTok _ :: ts, some acc => parseFlatAux ts (some acc)
  | HtmlTok.tagCloseTok m :: ts, some (n, buf) =>
      if m = n then HtmlNode.elemNode n [HtmlNode.textNode buf] :: parseFlatAux ts none
      else parseFlatAux ts (some (n, buf))
  | HtmlTok.tagCloseTok _ :: ts, none => parseFlatAux ts none

/-- Parse a markup string into a flat list of document nodes. -/
def parseHtml (s : String) : List HtmlNode :=
  parseFlatAux (tokenizeHtml (s.length + 1) s.data) none

mutual

/-- Text content of a node (BeautifulSoup's get_text with empty separator):
the concatenation of all descendant text runs. -/
def getText : HtmlNode → String
  | HtmlNode.textNode s => s
  | HtmlNode.elemNode _ cs => getTexts cs

/-- Concatenated text content of a list of nodes, in document order. -/
def getTexts : List HtmlNode → String
  | [] => ""
  | n :: ns => getText n ++ getTexts ns

end

mutual

/-- All descendant elements with the given tag, in document order
(BeautifulSoup's find_all). -/
def findTagNode (t : String) : HtmlNode → List HtmlNode
  | HtmlNode.textNode _ => []
  | HtmlNode.elemNode n cs =>
      (if n = t then [HtmlNode.elemNode n cs] else []) ++ findTagNodes t cs

/-- find_all over a list of sibling nodes, in document order. -/
def findTagNodes (t : String) : List HtmlNode → List HtmlNode
  | [] => []
  | n :: ns => findTagNode t n ++ findTagNodes t ns

end

/-- Whitespace in the sense of Python's str.strip (ASCII subset). -/
def isPySpace (c : Char) : Bool :=
  c == ' ' || c == '\t' || c == '\n' || c == '\r' || c == '\x0b' || c == '\x0c'

/-- Python's str.strip: remove leading and trailing whitespace. -/
def pyStrip (s : String) : String :=
  String.mk (((s.data.dropWhile isPySpace).reverse.dropWhile isPySpace).reverse)

/-- main.py, extract_paragraph_text: parse the markup, find all `p`
elements, take each one's stripped text, and drop the texts that are empty. -/
def extract_paragraph_text (html : String) : List String :=
  let paragraphs := findTagNodes "p" (parseHtml html)
  let paragraph_texts := paragraphs.map (fun p => pyStrip (getText p))
  paragraph_texts.filter (fun text => !(text == ""))

/-- Python's newline join, used at main.py line 153 to build the analyzable
content string. -/
def joinNL (l : List String) : String := String.intercalate "\n" l

example : extract_paragraph_text "<p> Hello </p><p></p><p>World</p>" = ["Hello", "World"] := by
  decide

/-! ## Data model and monitor loop (main.py, main / get_latest_posts /
analyze_with_llm / send_notification)

A post carries an opaque id, a creation timestamp (modelled as `Nat`; the
code only compares these values), and its raw markup content.  The external
collaborators are modelled by a per-cycle input record: what the feed API
returned (or that it raised), and what the LLM call returned (or that it
raised).  A cycle of the `while True` body maps the in-memory cursor and
the cycle input to a new cursor plus the list of observable actions taken,
in the order the code performs them. -/

structure Post where
  id : String
  created_at : Nat
  content : String
deriving DecidableEq, Repr

/-- Insertion step of a stable descending sort on created_at.  A post is
placed before the first element whose timestamp is not larger, so equal
timestamps keep their original relative order — the semantics of Python's
stable `list.sort(key=..., reverse=True)` at main.py line 142. -/
def insertDesc (p : Post) : List Post → List Post
  | [] => [p]
  | q :: qs =>
      if p.created_at < q.created_at then q :: insertDesc p qs
      else p :: q :: qs

/-- Stable sort by creation timestamp, newest first (main.py line 142). -/
def sortDesc (l : List Post) : List Post := l.foldr insertDesc []

/-- Candidate selection of main.py lines 141-143: sort newest-first and take
the head; `none` exactly when the fetch produced no posts. -/
def selectNewest (posts : List Post) : Option Post := (sortDesc posts).head?

/-- First element of the list attaining the maximal timestamp.  Reference
recursion used to state what `selectNewest` computes. -/
def firstMax : List Post → Option Post
  | [] => none
  | p :: ps =>
      match firstMax ps with
      | none => some p
      | some q => if p.created_at < q.created_at then some q else some p

/-- Outcome of the feed API call for one cycle: either the raised error or
the returned list of posts. -/
abbrev FetchOutcome := Except String (List Post)

/-- Outcome of the LLM chat call for one cycle: either the raised error or
the model's response text. -/
abbrev LlmOutcome := Except String String

/-- main.py, get_latest_posts (lines 48-62): return the fetched list, and on
any exception log and return the empty list. -/
def get_latest_posts : FetchOutcome → List Post
  | Except.error _ => []
  | Except.ok posts => posts

/-- Query parameters get_latest_posts passes to api.pull_statuses (lines
51-57): the since_id it was given, and, only when since_id is absent, a
created_after bound of now minus one day (86400 seconds). -/
def get_latest_posts_query (since_id : Option String) (now : Int) :
    Option String × Option Int :=
  match since_id with
  | none => (none, some (now - 86400))
  | some c => (some c, none)

/-- main.py, analyze_with_llm (lines 65-93): on an exception from the chat
call return (False, "Error: ..."); otherwise the verdict is whether the
response starts with "Yes", paired with the response. -/
def analyze_with_llm (outcome : LlmOutcome) : Bool × String :=
  match outcome with
  | Except.error e => (false, "Error: " ++ e)
  | Except.ok response => (response.startsWith "Yes", response)

/-- The observable actions of one cycle, in program order: running the
extractor on a post, calling the LLM on its joined content, posting a
notification with the given message, saving the cursor, sleeping. -/
inductive Event where
  | extractEv (id : String)
  | classifyEv (id : String) (text : String)
  | notifyEv (id : String) (message : String)
  | persistEv (id : String)
  | waitEv (seconds : Nat)
deriving DecidableEq, Repr

/-- The collaborator outcomes a single cycle can observe. -/
structure CycleInput where
  fetched : FetchOutcome
  llm : LlmOutcome

/-- main.py line 16: the fixed wait between cycles, in seconds. -/
def CHECK_INTERVAL : Nat := 300

/-- The body of the `while True` loop of main (main.py lines 132-170), as a
function of the current cursor and the collaborator outcomes: fetch, select
the newest post, skip when there is none or it equals the cursor, otherwise
extract, classify and possibly notify when the joined content is non-empty,
then save the cursor and wait. -/
def runCycle (cursor : Option String) (inp : CycleInput) :
    Option String × List Event :=
  let posts := get_latest_posts inp.fetched
  match selectNewest posts with
  | none => (cursor, [Event.waitEv CHECK_INTERVAL])
  | some newest =>
      if cursor = some newest.id then
        (cursor, [Event.waitEv CHECK_INTERVAL])
      else
        let content := joinNL (extract_paragraph_text newest.content)
        let procEvs :=
          if content = "" then [Event.extractEv newest.id]
          else
            let res := analyze_with_llm inp.llm
            [Event.extractEv newest.id, Event.classifyEv newest.id content] ++
              (if res.fst then
                [Event.notifyEv newest.id (content ++ "\n\nAnalysis: " ++ res.snd)]
              else [])
        (some newest.id, procEvs ++ [Event.persistEv newest.id, Event.waitEv CHECK_INTERVAL])

/-- Iterated monitor loop: run one cycle per input, threading the cursor and
concatenating the observable events. -/
def runTrace (cursor : Option String) : List CycleInput → Option String × List Event
  | [] => (cursor, [])
  | inp :: rest =>
      let step := runCycle cursor inp
      let tail := runTrace step.fst rest
      (tail.fst, step.snd ++ tail.snd)

/-- Cursor comparison for the monotonicity invariant: absent precedes
everything; a present cursor may only stay or grow in the id order. -/
def cursorLe : Option String → Option String → Prop
  | none, _ => True
  | some _, none => False
  | some a, some b => a = b ∨ a < b

/-- The feed contract along a trace: whenever the cursor is present, every
post returned by that cycle's fetch has a strictly larger id (the
"since_id" semantics of the API), cycle by cycle. -/
def wellFetched : Option String → List CycleInput → Prop
  | _, [] => True
  | c, inp :: rest =>
      (∀ p ∈ get_latest_posts inp.fetched, ∀ cid, c = some cid → cid < p.id) ∧
        wellFetched (runCycle c inp).fst rest

/-- Whether an event is a notification attempt. -/
def isNotifyEv : Event → Bool
  | Event.notifyEv _ _ => true
  | _ => false

/-- Number of notification attempts in an event list. -/
def countNotify (evs : List Event) : Nat := (evs.filter isNotifyEv).length

/-- Whether an event is a classifier invocation. -/
def isClassifyEv : Event → Bool
  | Event.classifyEv _ _ => true
  | _ => false

/-- The post id an event concerns, `none` for the wait. -/
def eventId : Event → Option String
  | Event.extractEv i => some i
  | Event.classifyEv i _ => some i
  | Event.notifyEv i _ => some i
  | Event.persistEv i => some i
  | Event.waitEv _ => none

/-! ## Cursor store (main.py, save_last_post_id / get_last_post_id)

The store file holds a single JSON object; its parsed content is modelled
as an association list of string fields, `none` standing for an absent
file.  json.dump/json.load round-tripping of the object is the standard
library's contract. -/

abbrev StoreFile := Option (List (String × String))

/-- Python dict.get on a string-valued JSON object: first binding of the
key, `none` when absent. -/
def dictGet (data : List (String × String)) (k : String) : Option String :=
  match data.find? (fun kv => kv.fst == k) with
  | none => none
  | some kv => some kv.snd

/-- main.py, save_last_post_id (lines 108-112): overwrite the store file
with the one-field object last_post_id ↦ post_id. -/
def save_last_post_id (_ : StoreFile) (post_id : String) : StoreFile :=
  some [("last_post_id", post_id)]

/-- main.py, get_last_post_id (lines 115-121): if the file exists, read the
object's last_post_id field (dict.get, `none` when missing); otherwise
`none`. -/
def get_last_post_id (store : StoreFile) : Option String :=
  match store with
  | none => none
  | some data => dictGet data "last_post_id"

/-! ## Byte-level view of the cursor save (for crash atomicity)

save_last_post_id opens the file with mode "w" — which truncates it in
place — and then json.dump writes the serialized object into the same
file.  The raw file content therefore passes through an intermediate
truncated state between the old and the new value. -/

/-- The serialized store file content json.dump produces for a post id
(default separators): \x7b"last_post_id": "<id>"\x7d. -/
def cursorJson (post_id : String) : String :=
  "\x7b\"last_post_id\": \"" ++ post_id ++ "\"\x7d"

/-- The successive raw contents of the store file during
save_last_post_id(post_id) starting from content `old`: the old content,
the empty content left by opening with mode "w" (truncation), then the
fully written new content.  A crash can stop the sequence at any point. -/
def saveCrashStates (old : String) (post_id : String) : List String :=
  [old, "", cursorJson post_id]

/-! ## Helper lemmas -/

lemma sortDesc_cons (p : Post) (l : List Post) :
    sortDesc (p :: l) = insertDesc p (sortDesc l) := rfl

lemma head_insertDesc (p : Post) (l : List Post) :
    (insertDesc p l).head? = some (match l.head? with
      | none => p
      | some q => if p.created_at < q.created_at then q else p) := by
  cases l with
  | nil => rfl
  | cons q qs => by_cases h : p.created_at < q.created_at <;> simp [insertDesc, h]

lemma selectNewest_eq_firstMax (l : List Post) : selectNewest l = firstMax l := by
  induction l with
  | nil => rfl
  | cons p ps ih =>
      show (sortDesc (p :: ps)).head? = firstMax (p :: ps)
      rw [sortDesc_cons, head_insertDesc]
      unfold selectNewest at ih
      rw [ih]
      cases h : firstMax ps with
      | none => simp [firstMax, h]
      | some q =>
          simp only [firstMax, h]
          by_cases hlt : p.created_at < q.created_at <;> simp [hlt]

lemma firstMax_eq_none {l : List Post} (h : firstMax l = none) : l = [] := by
  cases l with
  | nil => rfl
  | cons x xs =>
      exfalso
      unfold firstMax at h
      cases hx : firstMax xs <;> rw [hx] at h <;> dsimp only at h
      · exact Option.noConfusion h
      · split at h <;> exact Option.noConfusion h

lemma firstMax_spec (l : List Post) (p : Post) (h : firstMax l = some p) :
    (∃ l1 l2, l = l1 ++ p :: l2 ∧ ∀ q ∈ l1, q.created_at < p.created_at) ∧
      ∀ q ∈ l, q.created_at ≤ p.created_at := by
  induction l generalizing p with
  | nil => cases h
  | cons x xs ih =>
      unfold firstMax at h
      cases hx : firstMax xs with
      | none =>
          have hxs : xs = [] := firstMax_eq_none hx
          subst hxs
          rw [hx] at h
          simp only [Option.some.injEq] at h
          subst h
          exact ⟨⟨[], [], rfl, by simp⟩, by simp⟩
      | some q =>
          rw [hx] at h
          dsimp only at h
          by_cases hlt : x.created_at < q.created_at
          · rw [if_pos hlt] at h
            simp only [Option.some.injEq] at h
            subst h
            obtain ⟨⟨l1, l2, hdec, hl1⟩, hmax⟩ := ih q hx
            refine ⟨⟨x :: l1, l2, by rw [hdec]; rfl, ?_⟩, ?_⟩
            · intro r hr
              rcases List.mem_cons.mp hr with hr | hr
              · subst hr; exact hlt
              · exact hl1 r hr
            · intro r hr
              rcases List.mem_cons.mp hr with hr | hr
              · subst hr; exact Nat.le_of_lt hlt
              · exact hmax r hr
          · rw [if_neg hlt] at h
            simp only [Option.some.injEq] at h
            subst h
            obtain ⟨_, hmax⟩ := ih q hx
            refine ⟨⟨[], xs, rfl, by simp⟩, ?_⟩
            intro r hr
            rcases List.mem_cons.mp hr with hr | hr
            · subst hr; exact Nat.le_refl _
            · exact Nat.le_trans (hmax r hr) (Nat.le_of_not_lt hlt)

lemma selectNewest_mem {l : List Post} {p : Post} (h : selectNewest l = some p) :
    p ∈ l := by
  rw [selectNewest_eq_firstMax] at h
  obtain ⟨⟨l1, l2, hdec, _⟩, _⟩ := firstMax_spec l p h
  subst hdec
  simp

lemma runCycle_no_candidate (c : Option String) (inp : CycleInput)
    (h : selectNewest (get_latest_posts inp.fetched) = none) :
    runCycle c inp = (c, [Event.waitEv CHECK_INTERVAL]) := by
  simp [runCycle, h]

lemma runCycle_skip (c : Option String) (inp : CycleInput) (p : Post)
    (hsel : selectNewest (get_latest_posts inp.fetched) = some p)
    (heq : c = some p.id) :
    runCycle c inp = (c, [Event.waitEv CHECK_INTERVAL]) := by
  simp [runCycle, hsel, heq]

lemma runCycle_update (c : Option String) (inp : CycleInput) (p : Post)
    (hsel : selectNewest (get_latest_posts inp.fetched) = some p)
    (hne : c ≠ some p.id) :
    runCycle c inp =
      (some p.id,
        (if joinNL (extract_paragraph_text p.content) = "" then
            [Event.extractEv p.id]
          else
            [Event.extractEv p.id,
              Event.classifyEv p.id (joinNL (extract_paragraph_text p.content))] ++
              (if (analyze_with_llm inp.llm).fst then
                [Event.notifyEv p.id
                  (joinNL (extract_paragraph_text p.content) ++ "\n\nAnalysis: " ++
                    (analyze_with_llm inp.llm).snd)]
              else [])) ++
          [Event.persistEv p.id, Event.waitEv CHECK_INTERVAL]) := by
  simp [runCycle, hsel, hne]

lemma runTrace_cons (c : Option String) (inp : CycleInput) (rest : List CycleInput) :
    runTrace c (inp :: rest) =
      ((runTrace (runCycle c inp).fst rest).fst,
        (runCycle c inp).snd ++ (runTrace (runCycle c inp).fst rest).snd) := rfl

lemma cursorLe_refl (c : Option String) : cursorLe c c := by
  cases c with
  | none => trivial
  | some a => exact Or.inl rfl

lemma cursorLe_trans {a b c : Option String} (hab : cursorLe a b) (hbc : cursorLe b c) :
    cursorLe a c := by
  cases a with
  | none => trivial
  | some x =>
      cases b with
      | none => cases hab
      | some y =>
          cases c with
          | none => cases hbc
          | some z =>
              rcases hab with hab | hab <;> rcases hbc with hbc | hbc
              · exact Or.inl (hab.trans hbc)
              · exact Or.inr (hab ▸ hbc)
              · exact Or.inr (hbc ▸ hab)
              · exact Or.inr (hab.trans hbc)

lemma runCycle_cursor_step (c : Option String) (inp : CycleInput)
    (hfetch : ∀ p ∈ get_latest_posts inp.fetched, ∀ cid, c = some cid → cid < p.id) :
    (runCycle c inp).fst = c ∨
      ∃ p, selectNewest (get_latest_posts inp.fetched) = some p ∧
        (runCycle c inp).fst = some p.id ∧ ∀ cid, c = some cid → cid < p.id := by
  cases hsel : selectNewest (get_latest_posts inp.fetched) with
  | none => exact Or.inl (by rw [runCycle_no_candidate c inp hsel])
  | some p =>
      by_cases heq : c = some p.id
      · exact Or.inl (by rw [runCycle_skip c inp p hsel heq])
      · right
        refine ⟨p, rfl, ?_, ?_⟩
        · rw [runCycle_update c inp p hsel heq]
        · exact fun cid hc => hfetch p (selectNewest_mem hsel) cid hc

lemma cursorLe_runCycle (c : Option String) (inp : CycleInput)
    (hfetch : ∀ p ∈ get_latest_posts inp.fetched, ∀ cid, c = some cid → cid < p.id) :
    cursorLe c (runCycle c inp).fst := by
  rcases runCycle_cursor_step c inp hfetch with h | ⟨p, _, hfst, hstrict⟩
  · rw [h]; exact cursorLe_refl c
  · rw [hfst]
    cases c with
    | none => trivial
    | some cid => exact Or.inr (hstrict cid rfl)

lemma countNotify_append (a b : List Event) :
    countNotify (a ++ b) = countNotify a + countNotify b := by
  simp [countNotify, List.filter_append]

lemma countNotify_runCycle_le (c : Option String) (inp : CycleInput) :
    countNotify (runCycle c inp).snd ≤ 1 := by
  cases hsel : selectNewest (get_latest_posts inp.fetched) with
  | none =>
      rw [runCycle_no_candidate c inp hsel]
      simp [countNotify, isNotifyEv]
  | some p =>
      by_cases heq : c = some p.id
      · rw [runCycle_skip c inp p hsel heq]
        simp [countNotify, isNotifyEv]
      · rw [runCycle_update c inp p hsel heq]
        by_cases hc : joinNL (extract_paragraph_text p.content) = "" <;>
          by_cases hv : (analyze_with_llm inp.llm).fst <;>
            simp [hc, hv, countNotify, isNotifyEv, List.filter]

/-! ## The claims -/

/-- Claim C1: across every sequence of monitor-loop cycles satisfying the
feed's since_id contract, the cursor is either unchanged or replaced by the
id of a strictly newer post, never an older one; and in any single cycle the
cursor changes only to the selected post's id, persisted at the end of the
cycle after extraction was attempted, with classification attempted whenever
the extracted content is non-empty (per the spec's own empty-content
policy). -/
theorem cursor_never_regresses :
    (∀ c inps, wellFetched c inps → cursorLe c (runTrace c inps).fst) ∧
    (∀ c inp,
      (∀ p ∈ get_latest_posts inp.fetched, ∀ cid, c = some cid → cid < p.id) →
      (runCycle c inp).fst = c ∨
        ∃ p pre,
          selectNewest (get_latest_posts inp.fetched) = some p ∧
          (runCycle c inp).fst = some p.id ∧
          (∀ cid, c = some cid → cid < p.id) ∧
          (runCycle c inp).snd =
            pre ++ [Event.persistEv p.id, Event.waitEv CHECK_INTERVAL] ∧
          Event.extractEv p.id ∈ pre ∧
          (joinNL (extract_paragraph_text p.content) ≠ "" →
            Event.classifyEv p.id (joinNL (extract_paragraph_text p.content)) ∈ pre)) := by
  constructor
  · intro c inps h
    induction inps generalizing c with
    | nil => exact cursorLe_refl c
    | cons inp rest ih =>
        obtain ⟨h1, h2⟩ := h
        rw [runTrace_cons]
        exact cursorLe_trans (cursorLe_runCycle c inp h1) (ih _ h2)
  · intro c inp hfetch
    cases hsel : selectNewest (get_latest_posts inp.fetched) with
    | none => exact Or.inl (by rw [runCycle_no_candidate c inp hsel])
    | some p =>
        by_cases heq : c = some p.id
        · exact Or.inl (by rw [runCycle_skip c inp p hsel heq])
        · right
          refine ⟨p,
            (if joinNL (extract_paragraph_text p.content) = "" then
                [Event.extractEv p.id]
              else
                [Event.extractEv p.id,
                  Event.classifyEv p.id (joinNL (extract_paragraph_text p.content))] ++
                  (if (analyze_with_llm inp.llm).fst then
                    [Event.notifyEv p.id
                      (joinNL (extract_paragraph_text p.content) ++ "\n\nAnalysis: " ++
                        (analyze_with_llm inp.llm).snd)]
                  else [])),
            rfl, ?_, ?_, ?_, ?_, ?_⟩
          · rw [runCycle_update c inp p hsel heq]
          · exact fun cid hcid => hfetch p (selectNewest_mem hsel) cid hcid
          · rw [runCycle_update c inp p hsel heq]
          · by_cases hc : joinNL (extract_paragraph_text p.content) = "" <;> simp [hc]
          · intro hne
            rw [if_neg hne]
            simp

/-- Witness for C1 at a concrete trace: cursor "100", one cycle fetching the
strictly newer post "101". -/
theorem cursor_never_regresses_witness :
    cursorLe (some "100")
      (runTrace (some "100")
        [CycleInput.mk (Except.ok [Post.mk "101" 5 "<p>Hi</p>"])
          (Except.ok "No")]).fst := by
  refine cursor_never_regresses.1 _ _ ?_
  refine ⟨?_, trivial⟩
  intro p hp cid hcid
  simp only [get_latest_posts, List.mem_singleton] at hp
  subst hp
  injection hcid with h
  rw [← h]
  show ("100" : String) < "101"
  rw [String.lt_iff_toList_lt]
  decide

/-- Claim C2: when the classifier call raises, the loop's verdict is
negative, no notification event occurs in the cycle, and the cursor still
advances to the candidate's id. -/
theorem classifier_failure_failsafe (c : Option String) (inp : CycleInput)
    (p : Post) (e : String)
    (herr : inp.llm = Except.error e)
    (hsel : selectNewest (get_latest_posts inp.fetched) = some p)
    (hne : c ≠ some p.id)
    (hcontent : joinNL (extract_paragraph_text p.content) ≠ "") :
    (analyze_with_llm inp.llm).fst = false ∧
    (∀ ev ∈ (runCycle c inp).snd, isNotifyEv ev = false) ∧
    (runCycle c inp).fst = some p.id ∧
    Event.persistEv p.id ∈ (runCycle c inp).snd := by
  have hverdict : (analyze_with_llm inp.llm).fst = false := by rw [herr]; rfl
  have hev : (runCycle c inp).snd =
      [Event.extractEv p.id,
        Event.classifyEv p.id (joinNL (extract_paragraph_text p.content)),
        Event.persistEv p.id, Event.waitEv CHECK_INTERVAL] := by
    rw [runCycle_update c inp p hsel hne, if_neg hcontent, hverdict]
    simp
  refine ⟨hverdict, ?_, ?_, ?_⟩
  · rw [hev]
    intro ev hmem
    simp only [List.mem_cons, List.not_mem_nil, or_false] at hmem
    rcases hmem with h | h | h | h <;> simp [h, isNotifyEv]
  · rw [runCycle_update c inp p hsel hne]
  · rw [hev]
    simp

/-- Witness for C2: cold-start cycle on post "7" with content, classifier
raising "boom". -/
theorem classifier_failure_failsafe_witness :
    (analyze_with_llm
      (CycleInput.mk (Except.ok [Post.mk "7" 1 "<p>Hi</p>"])
        (Except.error "boom")).llm).fst = false ∧
    (∀ ev ∈ (runCycle none
      (CycleInput.mk (Except.ok [Post.mk "7" 1 "<p>Hi</p>"])
        (Except.error "boom"))).snd, isNotifyEv ev = false) ∧
    (runCycle none
      (CycleInput.mk (Except.ok [Post.mk "7" 1 "<p>Hi</p>"])
        (Except.error "boom"))).fst = some (Post.mk "7" 1 "<p>Hi</p>").id ∧
    Event.persistEv (Post.mk "7" 1 "<p>Hi</p>").id ∈
      (runCycle none
        (CycleInput.mk (Except.ok [Post.mk "7" 1 "<p>Hi</p>"])
          (Except.error "boom"))).snd :=
  classifier_failure_failsafe none _ (Post.mk "7" 1 "<p>Hi</p>") "boom"
    rfl (by decide) (by decide) (by decide)

/-- Claim C3: a cycle whose selected candidate equals the cursor is a no-op
(only the wait happens, cursor and store untouched), and feeding the same
post id in two consecutive cycles yields at most one notification attempt. -/
theorem dedup_guard_idempotent :
    (∀ c inp p, selectNewest (get_latest_posts inp.fetched) = some p →
      c = some p.id → runCycle c inp = (c, [Event.waitEv CHECK_INTERVAL])) ∧
    (∀ c inp1 inp2 p q,
      selectNewest (get_latest_posts inp1.fetched) = some p →
      selectNewest (get_latest_posts inp2.fetched) = some q →
      q.id = p.id →
      countNotify (runTrace c [inp1, inp2]).snd ≤ 1) := by
  constructor
  · exact fun c inp p hsel heq => runCycle_skip c inp p hsel heq
  · intro c inp1 inp2 p q hsel1 hsel2 hqp
    have htrace : (runTrace c [inp1, inp2]).snd =
        (runCycle c inp1).snd ++
          ((runCycle (runCycle c inp1).fst inp2).snd ++ []) := rfl
    by_cases heq : c = some p.id
    · have h1 := runCycle_skip c inp1 p hsel1 heq
      rw [htrace, h1]
      dsimp only
      have h2 := runCycle_skip c inp2 q hsel2 (by rw [heq, hqp])
      rw [h2]
      simp [countNotify, isNotifyEv]
    · have h1 := runCycle_update c inp1 p hsel1 heq
      have hfst : (runCycle c inp1).fst = some p.id := by rw [h1]
      have h2 := runCycle_skip (runCycle c inp1).fst inp2 q hsel2
        (by rw [hfst, hqp])
      rw [htrace, h2, List.append_nil, countNotify_append]
      dsimp only
      have hc1 : countNotify (runCycle c inp1).snd ≤ 1 := countNotify_runCycle_le c inp1
      have hc2 : countNotify [Event.waitEv CHECK_INTERVAL] = 0 := rfl
      omega

/-- Witness for C3: post "9" already at the cursor is skipped, and the same
post fetched in two consecutive cycles notifies at most once. -/
theorem dedup_guard_idempotent_witness :
    runCycle (some "9")
      (CycleInput.mk (Except.ok [Post.mk "9" 2 "<p>Yo</p>"]) (Except.ok "Yes!")) =
      (some "9", [Event.waitEv CHECK_INTERVAL]) ∧
    countNotify (runTrace none
      [CycleInput.mk (Except.ok [Post.mk "9" 2 "<p>Yo</p>"]) (Except.ok "Yes!"),
        CycleInput.mk (Except.ok [Post.mk "9" 2 "<p>Yo</p>"]) (Except.ok "Yes!")]).snd ≤ 1 :=
  ⟨dedup_guard_idempotent.1 (some "9") _ (Post.mk "9" 2 "<p>Yo</p>") (by decide) rfl,
    dedup_guard_idempotent.2 none _ _ (Post.mk "9" 2 "<p>Yo</p>")
      (Post.mk "9" 2 "<p>Yo</p>") (by decide) (by decide) rfl⟩

/-- Claim C4 (counterexample): ties on the creation timestamp are NOT broken
by id ordering — the same two tied posts fetched in the two possible orders
select different candidates, so no rule depending only on the posts' ids and
timestamps describes the tie-break. -/
theorem selection_tiebreak_order_dependent :
    (Post.mk "A" 5 "").created_at = (Post.mk "B" 5 "").created_at ∧
    (Post.mk "A" 5 "").id ≠ (Post.mk "B" 5 "").id ∧
    selectNewest [Post.mk "B" 5 "", Post.mk "A" 5 ""] = some (Post.mk "B" 5 "") ∧
    selectNewest [Post.mk "A" 5 "", Post.mk "B" 5 ""] = some (Post.mk "A" 5 "") := by
  decide

/-- Claim C4 (amended): in every cycle with a non-empty fetch the single
candidate is a post with the latest creation timestamp; ties are broken
deterministically by position in the fetched list (the stable descending
sort keeps the earliest-listed among tied posts); and every event of the
cycle concerns at most that one post. -/
theorem selection_first_latest :
    (∀ l p, selectNewest l = some p →
      ∃ l1 l2, l = l1 ++ p :: l2 ∧ (∀ q ∈ l1, q.created_at < p.created_at) ∧
        ∀ q ∈ l, q.created_at ≤ p.created_at) ∧
    (∀ c inp p, selectNewest (get_latest_posts inp.fetched) = some p →
      ∀ ev ∈ (runCycle c inp).snd, eventId ev = none ∨ eventId ev = some p.id) := by
  constructor
  · intro l p h
    rw [selectNewest_eq_firstMax] at h
    obtain ⟨⟨l1, l2, hdec, hl1⟩, hmax⟩ := firstMax_spec l p h
    exact ⟨l1, l2, hdec, hl1, hmax⟩
  · intro c inp p hsel ev hev
    by_cases heq : c = some p.id
    · rw [runCycle_skip c inp p hsel heq] at hev
      simp only [List.mem_singleton] at hev
      subst hev
      exact Or.inl rfl
    · rw [runCycle_update c inp p hsel heq] at hev
      by_cases hc : joinNL (extract_paragraph_text p.content) = ""
      · rw [if_pos hc] at hev
        simp at hev
        rcases hev with h | h | h <;> simp [h, eventId]
      · rw [if_neg hc] at hev
        by_cases hv : (analyze_with_llm inp.llm).fst
        · rw [if_pos hv] at hev
          simp at hev
          rcases hev with h | h | h | h | h <;> simp [h, eventId]
        · rw [if_neg hv] at hev
          simp at hev
          rcases hev with h | h | h | h <;> simp [h, eventId]

/-- Witness for the amended C4 at a singleton fetch. -/
theorem selection_first_latest_witness :
    (∃ l1 l2, [Post.mk "X" 1 ""] = l1 ++ Post.mk "X" 1 "" :: l2 ∧
      (∀ q ∈ l1, q.created_at < (Post.mk "X" 1 "").created_at) ∧
      ∀ q ∈ [Post.mk "X" 1 ""], q.created_at ≤ (Post.mk "X" 1 "").created_at) ∧
    ∀ ev ∈ (runCycle none
      (CycleInput.mk (Except.ok [Post.mk "X" 1 ""]) (Except.ok "No"))).snd,
      eventId ev = none ∨ eventId ev = some (Post.mk "X" 1 "").id :=
  ⟨selection_first_latest.1 [Post.mk "X" 1 ""] (Post.mk "X" 1 "") (by decide),
    selection_first_latest.2 none _ (Post.mk "X" 1 "") (by decide)⟩

/-- Claim C5: a candidate whose extracted, newline-joined content is empty
triggers neither classification nor notification, yet its id becomes the new
cursor and is persisted. -/
theorem empty_content_skip (c : Option String) (inp : CycleInput) (p : Post)
    (hsel : selectNewest (get_latest_posts inp.fetched) = some p)
    (hne : c ≠ some p.id)
    (hempty : joinNL (extract_paragraph_text p.content) = "") :
    runCycle c inp =
      (some p.id,
        [Event.extractEv p.id, Event.persistEv p.id, Event.waitEv CHECK_INTERVAL]) ∧
    ∀ ev ∈ (runCycle c inp).snd, isClassifyEv ev = false ∧ isNotifyEv ev = false := by
  have h := runCycle_update c inp p hsel hne
  rw [if_pos hempty] at h
  simp only [List.singleton_append] at h
  refine ⟨h, ?_⟩
  rw [h]
  intro ev hmem
  simp only [List.mem_cons, List.not_mem_nil, or_false] at hmem
  rcases hmem with hh | hh | hh <;> simp [hh, isClassifyEv, isNotifyEv]

/-- Witness for C5: post "2" whose only paragraph is whitespace. -/
theorem empty_content_skip_witness :
    runCycle none
      (CycleInput.mk (Except.ok [Post.mk "2" 1 "<p>  </p>"]) (Except.ok "Yes")) =
      (some (Post.mk "2" 1 "<p>  </p>").id,
        [Event.extractEv (Post.mk "2" 1 "<p>  </p>").id,
          Event.persistEv (Post.mk "2" 1 "<p>  </p>").id,
          Event.waitEv CHECK_INTERVAL]) ∧
    ∀ ev ∈ (runCycle none
      (CycleInput.mk (Except.ok [Post.mk "2" 1 "<p>  </p>"]) (Except.ok "Yes"))).snd,
      isClassifyEv ev = false ∧ isNotifyEv ev = false :=
  empty_content_skip none _ (Post.mk "2" 1 "<p>  </p>")
    (by decide) (by decide) (by decide)

/-- Claim C6: with no cursor the fetch query carries no since_id and a
created_after bound of exactly one day (86400 seconds = 24 hours) before
now; with a cursor it carries exactly that since_id and no created_after
bound. -/
theorem fetch_window_policy :
    (∀ now : Int, get_latest_posts_query none now = (none, some (now - 86400))) ∧
    (∀ (c : String) (now : Int), get_latest_posts_query (some c) now = (some c, none)) ∧
    (86400 : Int) = 24 * 60 * 60 :=
  ⟨fun _ => rfl, fun _ _ => rfl, by norm_num⟩

/-- Claim C7: a cycle whose fetch raised yields the empty candidate list,
leaves the cursor unchanged, performs only the fixed wait, and the loop
continues with the remaining cycles as if the failed one had not happened. -/
theorem fetch_failure_recovery (c : Option String) (inp : CycleInput)
    (rest : List CycleInput) (e : String)
    (herr : inp.fetched = Except.error e) :
    get_latest_posts inp.fetched = [] ∧
    runCycle c inp = (c, [Event.waitEv CHECK_INTERVAL]) ∧
    (runTrace c (inp :: rest)).fst = (runTrace c rest).fst ∧
    CHECK_INTERVAL = 300 := by
  have hempty : get_latest_posts inp.fetched = [] := by rw [herr]; rfl
  have hsel : selectNewest (get_latest_posts inp.fetched) = none := by
    rw [hempty]; rfl
  have hcyc := runCycle_no_candidate c inp hsel
  refine ⟨hempty, hcyc, ?_, rfl⟩
  rw [runTrace_cons, hcyc]

/-- Witness for C7: a network error with cursor "5" and an empty tail. -/
theorem fetch_failure_recovery_witness :
    get_latest_posts (CycleInput.mk (Except.error "net down") (Except.ok "Yes")).fetched = [] ∧
    runCycle (some "5") (CycleInput.mk (Except.error "net down") (Except.ok "Yes")) =
      (some "5", [Event.waitEv CHECK_INTERVAL]) ∧
    (runTrace (some "5")
      [CycleInput.mk (Except.error "net down") (Except.ok "Yes")]).fst =
      (runTrace (some "5") []).fst ∧
    CHECK_INTERVAL = 300 :=
  fetch_failure_recovery (some "5") _ [] "net down" rfl

/-- Claim C8 (code bug evidence): the save writes through an in-place
truncation, so among the raw file contents reachable by a crash during
save_last_post_id("101") over an old cursor "100" is the empty file, which
is neither the complete old value nor the complete new value. -/
theorem cursor_save_truncates_in_place :
    "" ∈ saveCrashStates (cursorJson "100") "101" ∧
    "" ≠ cursorJson "100" ∧ "" ≠ cursorJson "101" := by
  refine ⟨?_, ?_, ?_⟩ <;> decide

/-- Claim C9: the extractor returns the stripped texts of the paragraph
elements in document order with empty blocks dropped; in particular on
"<p> Hello </p><p></p><p>World</p>" it returns ["Hello", "World"], every
returned block is non-empty and is the stripped text of some paragraph, and
the output is an order-preserving sublist of the per-paragraph stripped
texts. -/
theorem extractor_contract :
    extract_paragraph_text "<p> Hello </p><p></p><p>World</p>" = ["Hello", "World"] ∧
    (∀ html t, t ∈ extract_paragraph_text html →
      t ≠ "" ∧ ∃ p ∈ findTagNodes "p" (parseHtml html), t = pyStrip (getText p)) ∧
    ∀ html, (extract_paragraph_text html).Sublist
      ((findTagNodes "p" (parseHtml html)).map (fun p => pyStrip (getText p))) := by
  refine ⟨by decide, ?_, ?_⟩
  · intro html t ht
    simp only [extract_paragraph_text, List.mem_filter, Bool.not_eq_eq_eq_not,
      Bool.not_true, beq_eq_false_iff_ne] at ht
    obtain ⟨hmem, hne⟩ := ht
    refine ⟨hne, ?_⟩
    obtain ⟨p, hp, hpe⟩ := List.mem_map.mp hmem
    exact ⟨p, hp, hpe.symm⟩
  · intro html
    simp only [extract_paragraph_text]
    exact List.filter_sublist _

/-- Witness for C9 at the spec's round-trip input and its first block. -/
theorem extractor_contract_witness :
    "Hello" ≠ "" ∧
    ∃ p ∈ findTagNodes "p" (parseHtml "<p> Hello </p><p></p><p>World</p>"),
      "Hello" = pyStrip (getText p) :=
  extractor_contract.2.1 "<p> Hello </p><p></p><p>World</p>" "Hello" (by decide)

/-- Claim C10: loading the cursor right after saving an id returns exactly
that id, and loading when nothing was ever saved returns absent. -/
theorem cursor_store_roundtrip :
    (∀ (st : StoreFile) (post_id : String),
      get_last_post_id (save_last_post_id st post_id) = some post_id) ∧
    get_last_post_id (none : StoreFile) = none := by
  refine ⟨?_, rfl⟩
  intro st post_id
  simp [get_last_post_id, save_last_post_id, dictGet]

end TweetWatcher
